import Mathlib

/-!
Verification of the research-pipeline coordination core.

The definitions below are a shallow embedding of the repository's Python
sources:

* `src/src/search-worker/main.py` — the search stage worker (`process_search`,
  `search_and_crawl`);
* `src/src/ai_worker/main.py` — the analysis stage worker (`process_ai`,
  `analyze_search_results`);
* `src/src/api_server/main.py` — the HTTP read surface (`list_requests`);
* `src/src/common/database.py` — the Ledger tables (`Request`, `SearchResult`,
  `AnalysisResult`).

External collaborators (the tokenizer, the vLLM engine, the search engine and
the crawler) are modelled as function parameters; the pipeline logic itself is
translated statement by statement.
-/

set_option maxHeartbeats 1000000
set_option maxRecDepth 20000

namespace AiAgent

/-- Request lifecycle status, the `status` column of `requests`
(`common/database.py`, values written by the workers and the API server). -/
inductive Status where
  | pending
  | searching
  | processing_search
  | analyzing
  | processing_analysis
  | completed
  | failed
deriving DecidableEq, Repr

/-!
## The claim primitive under concurrent replicas (C1)

Both workers claim a request with

```
SELECT id, status FROM requests
WHERE id = :request_id AND status = '<expected>'
FOR UPDATE SKIP LOCKED
```

and, on success, immediately advance `status` to the matching `processing_*`
value inside the same transaction (`search-worker/main.py` lines 102-129,
`ai_worker/main.py` lines 344-371).  Because the row lock makes the
check-and-advance atomic and `SKIP LOCKED` makes a concurrent claimer lose
rather than block, the database serialises all claim attempts: we model the
system as an interleaving of handler processes, each of whose database
operations is one atomic step on the shared `status` field.
-/

/-- Program counter of one worker-handler instance processing one delivered
message for the request.  `s*` states belong to search-worker handlers,
`a*` states to analysis-worker handlers.  `DoneLost` means the handler
received `LOST` (or finished without winning); `DoneWon` means it won the
claim and ran to the end of its message body. -/
inductive HState where
  | sReady
  | sWorking
  | sInserted
  | sDoneWon
  | sDoneLost
  | aReady
  | aWorking
  | aDoneWon
  | aDoneLost
deriving DecidableEq, Repr

/-- A search-worker handler that has won its claim (it is in the critical
section or already finished after winning). -/
def isWonS : HState → Bool
  | .sWorking | .sInserted | .sDoneWon => true
  | _ => false

/-- An analysis-worker handler that has won its claim. -/
def isWonA : HState → Bool
  | .aWorking | .aDoneWon => true
  | _ => false

/-- A search-worker handler currently inside its critical section (it holds
the request in `processing_search`). -/
def isSProc : HState → Bool
  | .sWorking | .sInserted => true
  | _ => false

/-- An analysis-worker handler currently inside its critical section (it holds
the request in `processing_analysis`). -/
def isAProc : HState → Bool
  | .aWorking => true
  | _ => false

/-- A handler currently inside its stage's critical section, i.e. a worker
that is "in a `processing_*` state" for the request. -/
def inProcSection : HState → Bool
  | .sWorking | .sInserted | .aWorking => true
  | _ => false

theorem isWonS_of_isSProc {pc : HState} (h : isSProc pc = true) : isWonS pc = true := by
  cases pc <;> simp [isSProc, isWonS] at h ⊢

theorem isWonA_of_isAProc {pc : HState} (h : isAProc pc = true) : isWonA pc = true := by
  cases pc <;> simp [isAProc, isWonA] at h ⊢

/-- Global configuration: the request row's status plus the program counters
of all concurrently running handler instances for this request. -/
structure ClaimConfig where
  status : Status
  hs : List HState
deriving DecidableEq, Repr

/-- One atomic database operation of one handler, as the code performs it:

* `claimSearchWin` / `claimSearchLose` — the `FOR UPDATE SKIP LOCKED` claim
  conditioned on `status = 'searching'`, advancing to `processing_search`
  on success (`search-worker/main.py` lines 102-128);
* `insertResults` — the `SearchResult` insert transaction (lines 144-153);
* `toAnalyzing` — the `status = "analyzing"` commit (lines 156-158);
* `searchFail` / `handoffFail` — the exception and empty-result paths that
  set `status = "failed"` (lines 134-141 and 173-181);
* `claimAnalyzeWin` / `claimAnalyzeLose` — the analysis-worker claim on
  `status = 'analyzing'` (`ai_worker/main.py` lines 344-371);
* `completeAnalysis` — the `AnalysisResult` insert plus `status = "completed"`
  commit (lines 378-389);
* `analysisFail` — the analysis-worker exception path (lines 396-410). -/
inductive HStep : Status → HState → Status → HState → Prop where
  | claimSearchWin : HStep .searching .sReady .processing_search .sWorking
  | claimSearchLose (st : Status) (h : st ≠ .searching) : HStep st .sReady st .sDoneLost
  | insertResults (st : Status) : HStep st .sWorking st .sInserted
  | searchFail (st : Status) : HStep st .sWorking .failed .sDoneWon
  | toAnalyzing (st : Status) : HStep st .sInserted .analyzing .sDoneWon
  | handoffFail (st : Status) : HStep st .sInserted .failed .sDoneWon
  | claimAnalyzeWin : HStep .analyzing .aReady .processing_analysis .aWorking
  | claimAnalyzeLose (st : Status) (h : st ≠ .analyzing) : HStep st .aReady st .aDoneLost
  | completeAnalysis (st : Status) : HStep st .aWorking .completed .aDoneWon
  | analysisFail (st : Status) : HStep st .aWorking .failed .aDoneWon

/-- The scheduler picks any handler `i` and runs its next atomic operation. -/
def ClaimStep (c c' : ClaimConfig) : Prop :=
  ∃ (i : Nat) (st' : Status) (pc' : HState),
    HStep c.status (c.hs.getD i .sDoneLost) st' pc' ∧ c' = ⟨st', c.hs.set i pc'⟩

/-- All interleavings of the handlers' atomic operations. -/
def ClaimReachable (c c' : ClaimConfig) : Prop :=
  Relation.ReflTransGen ClaimStep c c'

/-- Initial configuration: the request is claimable (`searching`, as left by
intake) and `n` search-worker replicas plus `m` analysis-worker replicas have
each received a delivery of the task. -/
def initClaimConfig (n m : Nat) : ClaimConfig :=
  ⟨.searching, List.replicate n .sReady ++ List.replicate m .aReady⟩

/-! ### List access helper lemmas -/

theorem getD_set_self {α : Type} (l : List α) (i : Nat) (x d : α) (h : i < l.length) :
    (l.set i x).getD i d = x := by
  induction l generalizing i with
  | nil => simp at h
  | cons a t ih =>
    cases i with
    | zero => rfl
    | succ k => simpa using ih k (by simpa using h)

theorem getD_set_self_or {α : Type} (l : List α) (i : Nat) (x d : α) :
    (l.set i x).getD i d = x ∨ (l.set i x).getD i d = d := by
  by_cases h : i < l.length
  · exact Or.inl (getD_set_self l i x d h)
  · right
    rw [List.set_eq_of_length_le (by omega)]
    exact List.getD_eq_default _ _ (by omega)

theorem getD_set_ne {α : Type} (l : List α) (i j : Nat) (x d : α) (h : i ≠ j) :
    (l.set i x).getD j d = l.getD j d := by
  induction l generalizing i j with
  | nil => simp [List.getD]
  | cons a t ih =>
    cases i with
    | zero =>
      cases j with
      | zero => exact absurd rfl h
      | succ k => rfl
    | succ m =>
      cases j with
      | zero => rfl
      | succ k => simpa using ih m k (by omega)

theorem getD_default_or_mem {α : Type} (l : List α) (i : Nat) (d : α) :
    l.getD i d = d ∨ l.getD i d ∈ l := by
  by_cases h : i < l.length
  · right
    rw [List.getD_eq_getElem l d h]
    exact l.getElem_mem h
  · exact Or.inl (List.getD_eq_default _ _ (by omega))

/-- At most one index satisfies `p` when any two satisfying indices coincide
(the default value must not satisfy `p`, so out-of-range reads are inert). -/
theorem countP_le_one_of_uniq {p : HState → Bool} (l : List HState)
    (h : ∀ i j : Nat, p (l.getD i .sDoneLost) = true → p (l.getD j .sDoneLost) = true → i = j) :
    l.countP p ≤ 1 := by
  induction l with
  | nil => simp
  | cons a t ih =>
    have ht : ∀ i j : Nat, p (t.getD i .sDoneLost) = true → p (t.getD j .sDoneLost) = true →
        i = j := by
      intro i j hi hj
      have := h (i + 1) (j + 1) (by simpa using hi) (by simpa using hj)
      omega
    have htle := ih ht
    rw [List.countP_cons]
    by_cases ha : p a = true
    · have htz : t.countP p = 0 := by
        by_contra hz
        have hpos : 0 < t.countP p := Nat.pos_of_ne_zero hz
        rw [List.countP_pos_iff] at hpos
        obtain ⟨x, hxmem, hpx⟩ := hpos
        obtain ⟨k, hk, hget⟩ := List.mem_iff_getElem.mp hxmem
        have hk0 : p (t.getD k .sDoneLost) = true := by
          rw [List.getD_eq_getElem t _ hk, hget]; exact hpx
        have := h 0 (k + 1) (by simpa using ha) (by simpa using hk0)
        omega
      simp [ha, htz]
    · simp only [Bool.not_eq_true] at ha
      simp [ha]
      omega

/-! ### The claim-uniqueness invariant -/

/-- Inductive invariant for the interleaved claim system. -/
structure ClaimInv (c : ClaimConfig) : Prop where
  uniqS : ∀ i j : Nat, isWonS (c.hs.getD i .sDoneLost) = true →
    isWonS (c.hs.getD j .sDoneLost) = true → i = j
  uniqA : ∀ i j : Nat, isWonA (c.hs.getD i .sDoneLost) = true →
    isWonA (c.hs.getD j .sDoneLost) = true → i = j
  searchFree : c.status = .searching → ∀ i : Nat, isWonS (c.hs.getD i .sDoneLost) = false
  earlyFree : c.status = .searching ∨ c.status = .processing_search →
    ∀ i : Nat, isWonA (c.hs.getD i .sDoneLost) = false
  analyzeFree : c.status = .analyzing → ∀ i : Nat, isWonA (c.hs.getD i .sDoneLost) = false
  procS : ∀ i : Nat, isSProc (c.hs.getD i .sDoneLost) = true → c.status = .processing_search
  procA : ∀ i : Nat, isAProc (c.hs.getD i .sDoneLost) = true → c.status = .processing_analysis

theorem claimInv_init (n m : Nat) : ClaimInv (initClaimConfig n m) := by
  have hmem : ∀ i : Nat, (initClaimConfig n m).hs.getD i .sDoneLost = .sReady ∨
      (initClaimConfig n m).hs.getD i .sDoneLost = .aReady ∨
      (initClaimConfig n m).hs.getD i .sDoneLost = .sDoneLost := by
    intro i
    rcases getD_default_or_mem (initClaimConfig n m).hs i .sDoneLost with h | h
    · exact Or.inr (Or.inr h)
    · rcases List.mem_append.mp h with h | h
      · exact Or.inl (List.eq_of_mem_replicate h)
      · exact Or.inr (Or.inl (List.eq_of_mem_replicate h))
  constructor
  · intro i j hi _
    rcases hmem i with h | h | h <;> rw [h] at hi <;> simp [isWonS] at hi
  · intro i j hi _
    rcases hmem i with h | h | h <;> rw [h] at hi <;> simp [isWonA] at hi
  · intro _ i
    rcases hmem i with h | h | h <;> rw [h] <;> rfl
  · intro _ i
    rcases hmem i with h | h | h <;> rw [h] <;> rfl
  · intro _ i
    rcases hmem i with h | h | h <;> rw [h] <;> rfl
  · intro i hi
    rcases hmem i with h | h | h <;> rw [h] at hi <;> simp [isSProc] at hi
  · intro i hi
    rcases hmem i with h | h | h <;> rw [h] at hi <;> simp [isAProc] at hi

/-! ### Transfer lemmas for one scheduler step -/

theorem getD_transfer {P : HState → Bool} {hs : List HState} {i : Nat} {pc0 pc' : HState}
    (hpc : hs.getD i .sDoneLost = pc0) (hdflt : P .sDoneLost = false)
    (hPP : P pc' = true → P pc0 = true) :
    ∀ j, P ((hs.set i pc').getD j .sDoneLost) = true → P (hs.getD j .sDoneLost) = true := by
  intro j hj
  by_cases hji : j = i
  · subst hji
    rcases getD_set_self_or hs j pc' .sDoneLost with h | h
    · rw [h] at hj
      rw [hpc]
      exact hPP hj
    · rw [h, hdflt] at hj
      exact absurd hj (by simp)
  · rwa [getD_set_ne hs i j pc' .sDoneLost (fun he => hji he.symm)] at hj

theorem getD_free_set {P : HState → Bool} {hs : List HState} {i : Nat} {pc0 pc' : HState}
    (hpc : hs.getD i .sDoneLost = pc0) (hdflt : P .sDoneLost = false)
    (hPP : P pc' = true → P pc0 = true)
    (hfree : ∀ j, P (hs.getD j .sDoneLost) = false) :
    ∀ j, P ((hs.set i pc').getD j .sDoneLost) = false := by
  intro j
  cases hb : P ((hs.set i pc').getD j .sDoneLost) with
  | false => rfl
  | true =>
    have := getD_transfer hpc hdflt hPP j hb
    rw [hfree j] at this
    exact absurd this (by simp)

theorem uniq_set {P : HState → Bool} {hs : List HState} {i : Nat} {pc0 pc' : HState}
    (hpc : hs.getD i .sDoneLost = pc0) (hdflt : P .sDoneLost = false)
    (hPP : P pc' = true → P pc0 = true)
    (huniq : ∀ j k : Nat, P (hs.getD j .sDoneLost) = true → P (hs.getD k .sDoneLost) = true →
      j = k) :
    ∀ j k : Nat, P ((hs.set i pc').getD j .sDoneLost) = true →
      P ((hs.set i pc').getD k .sDoneLost) = true → j = k :=
  fun j k hj hk =>
    huniq j k (getD_transfer hpc hdflt hPP j hj) (getD_transfer hpc hdflt hPP k hk)

theorem uniq_set_win {P : HState → Bool} {hs : List HState} {i : Nat} {pc' : HState}
    (hfree : ∀ j, P (hs.getD j .sDoneLost) = false) :
    ∀ j k : Nat, P ((hs.set i pc').getD j .sDoneLost) = true →
      P ((hs.set i pc').getD k .sDoneLost) = true → j = k := by
  have key : ∀ j : Nat, P ((hs.set i pc').getD j .sDoneLost) = true → j = i := by
    intro j hj
    by_contra hne
    rw [getD_set_ne hs i j pc' .sDoneLost (fun he => hne he.symm), hfree j] at hj
    exact absurd hj (by simp)
  intro j k hj hk
  rw [key j hj, key k hk]

theorem proc_set_preserve {P : HState → Bool} {hs : List HState} {i : Nat} {pc' : HState}
    {C : Prop}
    (hpcP : P pc' = false) (hdflt : P .sDoneLost = false)
    (hold : ∀ j, j ≠ i → P (hs.getD j .sDoneLost) = true → C) :
    ∀ j, P ((hs.set i pc').getD j .sDoneLost) = true → C := by
  intro j hj
  by_cases hji : j = i
  · subst hji
    rcases getD_set_self_or hs j pc' .sDoneLost with h | h <;> rw [h] at hj
    · rw [hpcP] at hj
      exact absurd hj (by simp)
    · rw [hdflt] at hj
      exact absurd hj (by simp)
  · rw [getD_set_ne hs i j pc' .sDoneLost (fun he => hji he.symm)] at hj
    exact hold j hji hj

/-- One scheduler step preserves the invariant. -/
theorem claimInv_step {st st' : Status} {hs : List HState} {i : Nat} {pc0 pc' : HState}
    (hpc : hs.getD i .sDoneLost = pc0)
    (hst : HStep st pc0 st' pc')
    (hc : ClaimInv ⟨st, hs⟩) : ClaimInv ⟨st', hs.set i pc'⟩ := by
  cases hst with
  | claimSearchWin =>
    exact ⟨uniq_set_win (hc.searchFree rfl),
      uniq_set hpc (by decide) (by decide) hc.uniqA,
      fun h => (nomatch h),
      fun _ => getD_free_set hpc (by decide) (by decide) (hc.earlyFree (Or.inl rfl)),
      fun h => (nomatch h),
      fun _ _ => rfl,
      proc_set_preserve (by decide) (by decide)
        (fun j _ hj => (nomatch (hc.procA j hj)))⟩
  | claimSearchLose _ =>
    exact ⟨uniq_set hpc (by decide) (by decide) hc.uniqS,
      uniq_set hpc (by decide) (by decide) hc.uniqA,
      fun h => getD_free_set hpc (by decide) (by decide) (hc.searchFree h),
      fun h => getD_free_set hpc (by decide) (by decide) (hc.earlyFree h),
      fun h => getD_free_set hpc (by decide) (by decide) (hc.analyzeFree h),
      proc_set_preserve (by decide) (by decide) (fun j _ hj => hc.procS j hj),
      proc_set_preserve (by decide) (by decide) (fun j _ hj => hc.procA j hj)⟩
  | insertResults =>
    have hstat : st = .processing_search := hc.procS i (by rw [hpc]; rfl)
    subst hstat
    exact ⟨uniq_set hpc (by decide) (by decide) hc.uniqS,
      uniq_set hpc (by decide) (by decide) hc.uniqA,
      fun h => (nomatch h),
      fun _ => getD_free_set hpc (by decide) (by decide) (hc.earlyFree (Or.inr rfl)),
      fun h => (nomatch h),
      fun _ _ => rfl,
      proc_set_preserve (by decide) (by decide)
        (fun j _ hj => (nomatch (hc.procA j hj)))⟩
  | searchFail =>
    have hstat : st = .processing_search := hc.procS i (by rw [hpc]; rfl)
    subst hstat
    exact ⟨uniq_set hpc (by decide) (by decide) hc.uniqS,
      uniq_set hpc (by decide) (by decide) hc.uniqA,
      fun h => (nomatch h),
      fun h => by rcases h with h | h <;> exact (nomatch h),
      fun h => (nomatch h),
      proc_set_preserve (by decide) (by decide)
        (fun j hji hj =>
          absurd (hc.uniqS j i (isWonS_of_isSProc hj) (by rw [hpc]; rfl)) hji),
      proc_set_preserve (by decide) (by decide)
        (fun j _ hj => (nomatch (hc.procA j hj)))⟩
  | toAnalyzing =>
    have hstat : st = .processing_search := hc.procS i (by rw [hpc]; rfl)
    subst hstat
    exact ⟨uniq_set hpc (by decide) (by decide) hc.uniqS,
      uniq_set hpc (by decide) (by decide) hc.uniqA,
      fun h => (nomatch h),
      fun h => by rcases h with h | h <;> exact (nomatch h),
      fun _ => getD_free_set hpc (by decide) (by decide) (hc.earlyFree (Or.inr rfl)),
      proc_set_preserve (by decide) (by decide)
        (fun j hji hj =>
          absurd (hc.uniqS j i (isWonS_of_isSProc hj) (by rw [hpc]; rfl)) hji),
      proc_set_preserve (by decide) (by decide)
        (fun j _ hj => (nomatch (hc.procA j hj)))⟩
  | handoffFail =>
    have hstat : st = .processing_search := hc.procS i (by rw [hpc]; rfl)
    subst hstat
    exact ⟨uniq_set hpc (by decide) (by decide) hc.uniqS,
      uniq_set hpc (by decide) (by decide) hc.uniqA,
      fun h => (nomatch h),
      fun h => by rcases h with h | h <;> exact (nomatch h),
      fun h => (nomatch h),
      proc_set_preserve (by decide) (by decide)
        (fun j hji hj =>
          absurd (hc.uniqS j i (isWonS_of_isSProc hj) (by rw [hpc]; rfl)) hji),
      proc_set_preserve (by decide) (by decide)
        (fun j _ hj => (nomatch (hc.procA j hj)))⟩
  | claimAnalyzeWin =>
    exact ⟨uniq_set hpc (by decide) (by decide) hc.uniqS,
      uniq_set_win (hc.analyzeFree rfl),
      fun h => (nomatch h),
      fun h => by rcases h with h | h <;> exact (nomatch h),
      fun h => (nomatch h),
      proc_set_preserve (by decide) (by decide)
        (fun j _ hj => (nomatch (hc.procS j hj))),
      fun _ _ => rfl⟩
  | claimAnalyzeLose _ =>
    exact ⟨uniq_set hpc (by decide) (by decide) hc.uniqS,
      uniq_set hpc (by decide) (by decide) hc.uniqA,
      fun h => getD_free_set hpc (by decide) (by decide) (hc.searchFree h),
      fun h => getD_free_set hpc (by decide) (by decide) (hc.earlyFree h),
      fun h => getD_free_set hpc (by decide) (by decide) (hc.analyzeFree h),
      proc_set_preserve (by decide) (by decide) (fun j _ hj => hc.procS j hj),
      proc_set_preserve (by decide) (by decide) (fun j _ hj => hc.procA j hj)⟩
  | completeAnalysis =>
    have hstat : st = .processing_analysis := hc.procA i (by rw [hpc]; rfl)
    subst hstat
    exact ⟨uniq_set hpc (by decide) (by decide) hc.uniqS,
      uniq_set hpc (by decide) (by decide) hc.uniqA,
      fun h => (nomatch h),
      fun h => by rcases h with h | h <;> exact (nomatch h),
      fun h => (nomatch h),
      proc_set_preserve (by decide) (by decide)
        (fun j _ hj => (nomatch (hc.procS j hj))),
      proc_set_preserve (by decide) (by decide)
        (fun j hji hj =>
          absurd (hc.uniqA j i (isWonA_of_isAProc hj) (by rw [hpc]; rfl)) hji)⟩
  | analysisFail =>
    have hstat : st = .processing_analysis := hc.procA i (by rw [hpc]; rfl)
    subst hstat
    exact ⟨uniq_set hpc (by decide) (by decide) hc.uniqS,
      uniq_set hpc (by decide) (by decide) hc.uniqA,
      fun h => (nomatch h),
      fun h => by rcases h with h | h <;> exact (nomatch h),
      fun h => (nomatch h),
      proc_set_preserve (by decide) (by decide)
        (fun j _ hj => (nomatch (hc.procS j hj))),
      proc_set_preserve (by decide) (by decide)
        (fun j hji hj =>
          absurd (hc.uniqA j i (isWonA_of_isAProc hj) (by rw [hpc]; rfl)) hji)⟩

/-- The invariant holds at every configuration reachable from the initial one. -/
theorem claimInv_reachable {n m : Nat} {c : ClaimConfig}
    (h : ClaimReachable (initClaimConfig n m) c) : ClaimInv c := by
  induction h with
  | refl => exact claimInv_init n m
  | tail _ hstep ih =>
    obtain ⟨i, st', pc', hst, rfl⟩ := hstep
    exact claimInv_step rfl hst ih

theorem inProcSection_cases {pc : HState} (h : inProcSection pc = true) :
    isSProc pc = true ∨ isAProc pc = true := by
  cases pc <;> simp_all [inProcSection, isSProc, isAProc]

/-- C1: for every request and claimable expected state, the claim operation
(`SELECT ... FOR UPDATE SKIP LOCKED` conditioned on `status == expected_state`
followed by advancing `status` to the matching `processing_*` value in the same
transaction) returns `OK` to at most one caller across all concurrently
running worker replicas, and no two workers are simultaneously in a
`processing_*` state for the same request.  Formally: in every interleaving of
any number of search-worker and analysis-worker handler instances for the same
request, at most one search-worker handler ever wins the `searching` claim, at
most one analysis-worker handler ever wins the `analyzing` claim, and at most
one handler is inside a `processing_*` critical section at any time.  Every
handler that does not win terminates in a `DoneLost` state, i.e. receives
`LOST` and drops the message. -/
theorem claim_at_most_one_winner (n m : Nat) (c : ClaimConfig)
    (h : ClaimReachable (initClaimConfig n m) c) :
    c.hs.countP isWonS ≤ 1 ∧ c.hs.countP isWonA ≤ 1 ∧
      c.hs.countP inProcSection ≤ 1 := by
  have hinv := claimInv_reachable h
  refine ⟨countP_le_one_of_uniq _ hinv.uniqS, countP_le_one_of_uniq _ hinv.uniqA, ?_⟩
  apply countP_le_one_of_uniq
  intro i j hi hj
  rcases inProcSection_cases hi with hiS | hiA <;> rcases inProcSection_cases hj with hjS | hjA
  · exact hinv.uniqS i j (isWonS_of_isSProc hiS) (isWonS_of_isSProc hjS)
  · exact (nomatch (hinv.procS i hiS).symm.trans (hinv.procA j hjA))
  · exact (nomatch (hinv.procA i hiA).symm.trans (hinv.procS j hjS))
  · exact hinv.uniqA i j (isWonA_of_isAProc hiA) (isWonA_of_isAProc hjA)

/-- Witness for C1: a concrete two-step interleaving of two search-worker
replicas and one analysis-worker replica in which the first replica wins the
claim and the second receives `LOST`. -/
theorem claim_at_most_one_winner_witness :
    ([HState.sWorking, HState.sDoneLost, HState.aReady] : List HState).countP isWonS ≤ 1 ∧
    ([HState.sWorking, HState.sDoneLost, HState.aReady] : List HState).countP isWonA ≤ 1 ∧
    ([HState.sWorking, HState.sDoneLost, HState.aReady] : List HState).countP
      inProcSection ≤ 1 := by
  have s1 : ClaimStep (initClaimConfig 2 1)
      ⟨.processing_search, [HState.sWorking, .sReady, .aReady]⟩ :=
    ⟨0, .processing_search, .sWorking, HStep.claimSearchWin, rfl⟩
  have s2 : ClaimStep ⟨.processing_search, [HState.sWorking, .sReady, .aReady]⟩
      ⟨.processing_search, [HState.sWorking, .sDoneLost, .aReady]⟩ :=
    ⟨1, .processing_search, .sDoneLost, HStep.claimSearchLose _ (by decide), rfl⟩
  exact claim_at_most_one_winner 2 1
    ⟨.processing_search, [HState.sWorking, .sDoneLost, .aReady]⟩
    (Relation.ReflTransGen.tail (Relation.ReflTransGen.tail Relation.ReflTransGen.refl s1) s2)

/-!
## Context folding in the analysis worker (C2, C3, C4)

`analyze_search_results` (`ai_worker/main.py` lines 132-312).  The tokenizer
is modelled by a parameter `tk : String → Nat` standing for
`len(tokenizer.encode(s))`; the vLLM engine by
`gen : String → Except String String` standing for one `llm.generate` call on
one prompt (which may raise).
-/

/-- A `search_results` row (`common/database.py`): source URL, title and
extracted content body. -/
structure SearchResultRow where
  url : String
  title : String
  content : String
deriving DecidableEq, Repr

/-- `RESERVED_TOKENS = 1800` (`ai_worker/main.py` line 163). -/
def RESERVED_TOKENS : Nat := 1800

/-- `MAX_CONTEXT_TOKENS = MAX_MODEL_LEN - RESERVED_TOKENS` (line 164); this is
the `CTX_MAX` of the specification. -/
def MAX_CONTEXT_TOKENS (maxModelLen : Nat) : Nat := maxModelLen - RESERVED_TOKENS

/-- `MAP_CHUNK_SIZE = 3000` (line 168); the `MAP_CHUNK` of the specification. -/
def MAP_CHUNK_SIZE : Nat := 3000

/-- Python string slicing `s[:n]`: the first `n` characters. -/
def takeChars (n : Nat) (s : String) : String := String.mk (s.data.take n)

/-- Python `str.strip()`: leading and trailing whitespace removed. -/
def stripChars (s : String) : String :=
  String.mk (((s.data.dropWhile Char.isWhitespace).reverse.dropWhile Char.isWhitespace).reverse)

/-- One formatted result item (lines 171-181): content hard-capped at 10000
characters, then rendered as
`"[결과 N]\n제목: <title>\nURL: <url>\n내용: <content>\n"`. -/
def formatItem (idx : Nat) (r : SearchResultRow) : String :=
  "[결과 " ++ toString idx ++ "]\n제목: " ++ r.title ++ "\nURL: " ++ r.url ++
    "\n내용: " ++ takeChars 10000 r.content ++ "\n"

/-- `content_items`, enumerated from 1 (line 172). -/
def contentItems (results : List SearchResultRow) : List String :=
  results.enum.map fun p => formatItem (p.1 + 1) p.2

/-- `full_context_str = "\n---\n".join(content_items)` (line 184). -/
def fullContextStr (results : List SearchResultRow) : String :=
  String.intercalate "\n---\n" (contentItems results)

/-- Per-item truncation of the Map phase (lines 209-215): an item whose token
count exceeds `MAP_CHUNK_SIZE` is cut to
`int(len(item) * (MAP_CHUNK_SIZE / item_tokens))` characters, the visible
`"...(truncated)"` marker is appended, and the item is re-accounted at exactly
`MAP_CHUNK_SIZE` tokens.  The first component is the (possibly truncated) item,
the second is the `item_tokens` accounting variable of the source. -/
def truncateItem (tk : String → Nat) (item : String) : String × Nat :=
  if tk item > MAP_CHUNK_SIZE then
    (takeChars (item.length * MAP_CHUNK_SIZE / tk item) item ++ "...(truncated)", MAP_CHUNK_SIZE)
  else (item, tk item)

/-- The chunk-accumulation loop of the Map phase (lines 202-227), carrying the
finished chunks `acc`, the current chunk `cur` and the running token count
`curTokens`.  Each chunk element is an item paired with its accounted token
count. -/
def buildChunksGo (tk : String → Nat) :
    List String → List (List (String × Nat)) → List (String × Nat) → Nat →
      List (List (String × Nat))
  | [], acc, cur, _ => if cur.isEmpty then acc else acc ++ [cur]
  | item :: rest, acc, cur, curTokens =>
    let p := truncateItem tk item
    if curTokens + p.2 > MAP_CHUNK_SIZE then
      buildChunksGo tk rest (acc ++ [cur]) [p] p.2
    else
      buildChunksGo tk rest acc (cur ++ [p]) (curTokens + p.2)

/-- The chunks produced by the Map phase for a list of formatted items. -/
def buildChunks (tk : String → Nat) (items : List String) : List (List (String × Nat)) :=
  buildChunksGo tk items [] [] 0

/-- `"\n---\n".join(current_chunk)` (lines 219 and 227). -/
def joinChunk (c : List (String × Nat)) : String :=
  String.intercalate "\n---\n" (c.map Prod.fst)

/-- Accounted token count of a chunk: the sum of the `item_tokens` values of
its items, exactly as the loop budgets them. -/
def chunkTokens (c : List (String × Nat)) : Nat :=
  (c.map Prod.snd).sum

/-- The Map-phase system prompt (line 233). -/
def mapSystemPrompt : String :=
  "You are a research assistant. Summarize the provided search results in Korean. Extract key facts relevant to the topic."

/-- The per-chunk Map prompt (lines 235-239), mentioning the topic and the
chunk position `i/K`. -/
def mapPrompt (topic : String) (k i : Nat) (chunk : String) : String :=
  "<|begin_of_text|><|start_header_id|>system<|end_header_id|>\n\n" ++
    mapSystemPrompt ++
    "<|eot_id|><|start_header_id|>user<|end_header_id|>\n\n" ++
    "Topic: " ++ topic ++ "\n\nChunk " ++ toString i ++ "/" ++ toString k ++ ":\n" ++
    chunk ++ "\n\nSummarize key points in Korean:" ++
    "<|eot_id|><|start_header_id|>assistant<|end_header_id|>\n\n"

/-- The Reduce-phase join (line 253):
`"\n\n---\n\n".join(f"Summary Part {i+1}:\n{s}")`. -/
def combineSummaries (summaries : List String) : String :=
  String.intercalate "\n\n---\n\n"
    (summaries.enum.map fun p => "Summary Part " ++ toString (p.1 + 1) ++ ":\n" ++ p.2)

/-- The final-analysis system prompt (lines 260-270). -/
def analysisSystemPrompt : String :=
  "You are a professional information summarization assistant.\n\nCRITICAL RULES:\n1. Respond in Korean language ONLY (한국어로만 답변)\n2. Summarize based ONLY on the provided search results\n3. Be concise - use 3-5 paragraphs maximum\n4. Do NOT repeat content\n5. Ignore irrelevant results\n6. Do NOT mention sources explicitly unless critical\n\nYour response must be entirely in Korean."

/-- The final outer prompt (lines 272-286): the Llama 3.1 chat template around
the analysis system prompt and the user prompt carrying the topic and the
final context. -/
def finalAnalysisPrompt (topic finalContext : String) : String :=
  "<|begin_of_text|><|start_header_id|>system<|end_header_id|>\n\n" ++
    analysisSystemPrompt ++
    "<|eot_id|><|start_header_id|>user<|end_header_id|>\n\n" ++
    "Topic: " ++ topic ++ "\n\nSearch Results (or Summarized Context):\n" ++
    finalContext ++
    "\n\nSummarize the above information about \x27" ++ topic ++
    "\x27 in Korean language." ++
    "<|eot_id|><|start_header_id|>assistant<|end_header_id|>\n\n"

/-- Instrumented outcome of `analyze_search_results`: the summary the function
returns together with the intermediate quantities it computed on the way. -/
structure AnalyzeOutcome where
  totalTokens : Nat
  usedFold : Bool
  chunks : List (List (String × Nat))
  mapPrompts : List String
  finalContext : String
  finalPrompt : String
  summary : String
deriving DecidableEq, Repr

/-- `analyze_search_results` (lines 132-312) as a pure function of the
tokenizer, the engine and the loaded `search_results` rows.  Raises
(`Except.error`) exactly where the source raises: the `ValueError` on an
empty result set (line 153) and any engine failure.  Note that after the
Reduce join (lines 251-256) the source performs no token-count check before
submitting the final prompt. -/
def analyzeSearchResults (maxModelLen : Nat) (tk : String → Nat)
    (gen : String → Except String String) (requestId topic : String)
    (searchResults : List SearchResultRow) : Except String AnalyzeOutcome :=
  if searchResults.isEmpty then
    .error ("No search results found for request " ++ requestId)
  else
    let items := contentItems searchResults
    let fullCtx := String.intercalate "\n---\n" items
    let totalTokens := tk fullCtx
    if totalTokens ≤ MAX_CONTEXT_TOKENS maxModelLen then
      let finalPrompt := finalAnalysisPrompt topic fullCtx
      (gen finalPrompt).map fun out =>
        ⟨totalTokens, false, [], [], fullCtx, finalPrompt, stripChars out⟩
    else
      let chunks := buildChunks tk items
      let chunkStrs := chunks.map joinChunk
      let prompts := chunkStrs.enum.map fun p =>
        mapPrompt topic chunkStrs.length (p.1 + 1) p.2
      match prompts.mapM gen with
      | .error e => .error e
      | .ok outs =>
        let summaries := outs.map stripChars
        let finalContext := combineSummaries summaries
        let finalPrompt := finalAnalysisPrompt topic finalContext
        (gen finalPrompt).map fun out =>
          ⟨totalTokens, true, chunks, prompts, finalContext, finalPrompt, stripChars out⟩

/-! ### The Map-phase partition (C4) -/

theorem truncateItem_snd_le (tk : String → Nat) (item : String) :
    (truncateItem tk item).2 ≤ MAP_CHUNK_SIZE := by
  rw [truncateItem]
  split
  · exact Nat.le_refl _
  · rename_i h
    simpa using Nat.le_of_not_lt h

theorem buildChunksGo_flatten (tk : String → Nat) (items : List String)
    (acc : List (List (String × Nat))) (cur : List (String × Nat)) (t : Nat) :
    (buildChunksGo tk items acc cur t).flatten =
      acc.flatten ++ cur ++ items.map (truncateItem tk) := by
  induction items generalizing acc cur t with
  | nil =>
    by_cases hcur : cur.isEmpty
    · rw [List.isEmpty_iff] at hcur
      simp [buildChunksGo, hcur]
    · simp only [buildChunksGo, if_neg hcur]
      simp
  | cons item rest ih =>
    simp only [buildChunksGo]
    split
    · rw [ih]
      simp
    · rw [ih]
      simp

theorem buildChunksGo_budget (tk : String → Nat) (items : List String)
    (acc : List (List (String × Nat))) (cur : List (String × Nat)) (t : Nat)
    (hacc : ∀ c ∈ acc, chunkTokens c ≤ MAP_CHUNK_SIZE)
    (hcur : chunkTokens cur = t) (ht : t ≤ MAP_CHUNK_SIZE) :
    ∀ c ∈ buildChunksGo tk items acc cur t, chunkTokens c ≤ MAP_CHUNK_SIZE := by
  induction items generalizing acc cur t with
  | nil =>
    intro c hc
    by_cases hcure : cur.isEmpty
    · rw [buildChunksGo, if_pos hcure] at hc
      exact hacc c hc
    · rw [buildChunksGo, if_neg hcure] at hc
      rcases List.mem_append.mp hc with h | h
      · exact hacc c h
      · rw [List.mem_singleton.mp h, hcur]
        exact ht
  | cons item rest ih =>
    intro c hc
    simp only [buildChunksGo] at hc
    split at hc
    · refine ih (acc ++ [cur]) [truncateItem tk item] (truncateItem tk item).2 ?_
        (by simp [chunkTokens]) (truncateItem_snd_le tk item) c hc
      intro d hd
      rcases List.mem_append.mp hd with h | h
      · exact hacc d h
      · rw [List.mem_singleton.mp h, hcur]
        exact ht
    · refine ih acc (cur ++ [truncateItem tk item]) (t + (truncateItem tk item).2) hacc
        (by simp only [chunkTokens] at hcur ⊢; simp [hcur]) (by omega) c hc

/-- C4: on the fold path the partition of the formatted result items
(1) covers every item exactly once and in input order — the concatenation of
the chunks is exactly the item list, each item passed through the per-item
truncation; (2) gives every chunk an accounted token total of at most
`MAP_CHUNK_SIZE`; and (3) character-truncates any single item whose token
count alone exceeds `MAP_CHUNK_SIZE` to
`int(len(item) * MAP_CHUNK_SIZE / item_tokens)` characters, retaining it with
the visible `"...(truncated)"` marker appended. -/
theorem fold_partition_correct (tk : String → Nat) (items : List String) :
    (buildChunks tk items).flatten = items.map (truncateItem tk) ∧
    (∀ c ∈ buildChunks tk items, chunkTokens c ≤ MAP_CHUNK_SIZE) ∧
    (∀ item : String, MAP_CHUNK_SIZE < tk item →
      truncateItem tk item =
        (takeChars (item.length * MAP_CHUNK_SIZE / tk item) item ++ "...(truncated)",
          MAP_CHUNK_SIZE)) := by
  refine ⟨?_, ?_, ?_⟩
  · rw [buildChunks, buildChunksGo_flatten]
    simp
  · exact buildChunksGo_budget tk items [] [] 0 (by simp) rfl (by simp [MAP_CHUNK_SIZE])
  · intro item hgt
    rw [truncateItem, if_pos hgt]

/-- A tokenizer charging 500 tokens per character, used to exercise the
truncation and chunk-split branches on short strings. -/
def w4tk : String → Nat := fun s => 500 * s.length

def w4items : List String := ["aaaaaaaa", "bb"]

/-- Witness for C4 at a concrete input: the first item (4000 tokens) is
truncated to 6 characters plus the marker and accounted at 3000 tokens; the
two items end up in two order-preserving chunks within budget. -/
theorem fold_partition_correct_witness :
    (buildChunks w4tk w4items).flatten = w4items.map (truncateItem w4tk) ∧
    chunkTokens [("aaaaaa...(truncated)", 3000)] ≤ MAP_CHUNK_SIZE ∧
    truncateItem w4tk "aaaaaaaa" =
      ("aaaaaa" ++ "...(truncated)", MAP_CHUNK_SIZE) := by
  refine ⟨(fold_partition_correct w4tk w4items).1, ?_, ?_⟩
  · exact (fold_partition_correct w4tk w4items).2.1 [("aaaaaa...(truncated)", 3000)]
      (by decide)
  · have h := (fold_partition_correct w4tk w4items).2.2 "aaaaaaaa" (by decide)
    rw [h]
    decide

/-! ### Direct path versus fold path (C3) -/

theorem except_map_ok {ε α β : Type} {f : α → β} {x : Except ε α} {b : β}
    (h : x.map f = .ok b) : ∃ a, x = .ok a ∧ b = f a := by
  cases x with
  | error e => exact (nomatch h)
  | ok a =>
    simp only [Except.map, Except.ok.injEq] at h
    exact ⟨a, rfl, h.symm⟩

/-- C3: the strategy selection of `analyze_search_results` (lines 192-199).
Whenever the call succeeds, the fold path was taken exactly when the token
count `T` of the concatenated items exceeds `CTX_MAX` (so `T = CTX_MAX` takes
the direct path and `T = CTX_MAX + 1` the fold path), and on the direct path
the final context is the concatenation itself and no Map prompts are issued. -/
theorem direct_path_identity (maxModelLen : Nat) (tk : String → Nat)
    (gen : String → Except String String) (requestId topic : String)
    (results : List SearchResultRow) (out : AnalyzeOutcome)
    (hok : analyzeSearchResults maxModelLen tk gen requestId topic results = .ok out) :
    out.usedFold = decide (MAX_CONTEXT_TOKENS maxModelLen < tk (fullContextStr results)) ∧
    (tk (fullContextStr results) ≤ MAX_CONTEXT_TOKENS maxModelLen →
      out.finalContext = fullContextStr results ∧ out.mapPrompts = []) := by
  simp only [analyzeSearchResults] at hok
  split at hok
  · exact (nomatch hok)
  · split at hok
    · rename_i hle
      obtain ⟨o, _, hout⟩ := except_map_ok hok
      subst hout
      exact ⟨(decide_eq_false (Nat.not_lt.mpr hle)).symm, fun _ => ⟨rfl, rfl⟩⟩
    · rename_i hgtn
      have hgt : MAX_CONTEXT_TOKENS maxModelLen < tk (fullContextStr results) :=
        Nat.not_le.mp hgtn
      split at hok
      · exact (nomatch hok)
      · obtain ⟨o, _, hout⟩ := except_map_ok hok
        subst hout
        exact ⟨(decide_eq_true hgt).symm, fun hle => absurd hle (Nat.not_le.mpr hgt)⟩

def w3gen : String → Except String String := fun _ => .ok "S"

def w3results : List SearchResultRow := [⟨"u", "t", "c"⟩]

/-- Witness for C3 at a concrete input that fits in the context window:
the call succeeds on the direct path, the final context is the concatenation
itself and no Map prompts exist. -/
theorem direct_path_identity_witness :
    (AnalyzeOutcome.usedFold
        ⟨String.length (fullContextStr w3results), false, [], [], fullContextStr w3results,
          finalAnalysisPrompt "topic" (fullContextStr w3results), "S"⟩ =
      decide (MAX_CONTEXT_TOKENS 4096 < String.length (fullContextStr w3results))) ∧
    (fullContextStr w3results = fullContextStr w3results ∧
      ([] : List String) = []) := by
  have h := direct_path_identity 4096 String.length w3gen "rid" "topic" w3results
    ⟨String.length (fullContextStr w3results), false, [], [], fullContextStr w3results,
      finalAnalysisPrompt "topic" (fullContextStr w3results), "S"⟩ (by rfl)
  exact ⟨h.1, h.2 (by decide)⟩

/-! ### The missing Reduce-overflow check (C2) -/

/-- A tokenizer charging one hundred tokens per character, used to trigger the
fold path on short strings. -/
def c2Tk : String → Nat := fun s => 100 * s.length

/-- An engine whose every generation is a 10-character (1000-token) output,
within the `max_tokens=1024` Map sampling cap. -/
def c2Gen : String → Except String String := fun _ => .ok "bbbbbbbbbb"

/-- Two search results whose formatted items exceed `MAP_CHUNK_SIZE` each. -/
def c2Rows : List SearchResultRow :=
  [⟨"u1", "t1", "aaaa"⟩, ⟨"u2", "t2", "aaaa"⟩]

/-- Boolean evaluation of `analyze_search_results` at the C2 failing input:
the call succeeds, the fold path was taken, and both the Reduce output and the
final prompt exceed their token ceilings. -/
def c2Check : Bool :=
  match analyzeSearchResults 4096 c2Tk c2Gen "rid" "topic" c2Rows with
  | .error _ => false
  | .ok o =>
    o.usedFold && decide (MAX_CONTEXT_TOKENS 4096 < c2Tk o.finalContext) &&
      decide (4096 < c2Tk o.finalPrompt)

/-- C2 is violated by the code (code bug): with `MAX_MODEL_LEN = 4096`
(`CTX_MAX = 2296`), two results under a 100-tokens-per-character tokenizer
take the fold path into two chunks, and the two 1000-token chunk summaries
joined with their `Summary Part i:` labels make the Reduce output exceed
`CTX_MAX` — yet `analyze_search_results` performs no token check after the
Reduce join (lines 251-256) and submits a final prompt whose token count
exceeds `MAX_MODEL_LEN`, returning normally instead of failing the request. -/
theorem reduce_overflow_submitted :
    ∃ out, analyzeSearchResults 4096 c2Tk c2Gen "rid" "topic" c2Rows = .ok out ∧
      out.usedFold = true ∧
      MAX_CONTEXT_TOKENS 4096 < c2Tk out.finalContext ∧
      4096 < c2Tk out.finalPrompt := by
  have hb : c2Check = true := by decide
  rw [c2Check] at hb
  cases hval : analyzeSearchResults 4096 c2Tk c2Gen "rid" "topic" c2Rows with
  | error e =>
    rw [hval] at hb
    exact (nomatch hb)
  | ok out =>
    rw [hval] at hb
    simp only [Bool.and_eq_true, decide_eq_true_eq] at hb
    exact ⟨out, rfl, hb.1.1, hb.1.2, hb.2⟩

/-!
## Per-message worker traces (C5, C6, C7, C8, C10)

The per-message bodies of `process_search` (`search-worker/main.py` lines
87-183) and `process_ai` (`ai_worker/main.py` lines 322-412) are modelled as
functions from the Ledger state and the message to the list of primitive
actions the worker performs, in program order.  The Ledger evolution is
obtained by folding the actions over the state.  The external search stage
(`search_and_crawl`) and the analysis stage are modelled by `Except`-valued
parameters: `.error e` stands for an exception carrying message `e`.
-/

/-- The `requests` row for one request: topic, lifecycle status,
`error_message`, and whether `completed_at` has been set. -/
structure RequestRow where
  topic : String
  status : Status
  error_message : Option String
  completedSet : Bool
deriving DecidableEq, Repr

/-- The Ledger restricted to one request: its `requests` row, its
`search_results` rows, and its `analysis_results` rows
(summary and inference time). -/
structure Db where
  request : Option RequestRow
  search_results : List SearchResultRow
  analysis_results : List (String × Nat)
deriving DecidableEq, Repr

/-- One primitive worker action, in the order the code performs them. -/
inductive WEvent where
  | claimWon
  | claimLost
  | setStatus (s : Status)
  | setFailed (msg : String)
  | insertSearchResults (rows : List SearchResultRow)
  | insertAnalysisResult (summary : String) (ms : Nat)
  | setCompleted
  | publishAnalyze (requestId topic : String)
  | commitOffset
deriving DecidableEq, Repr

/-- Effect of one action on the Ledger.  `publishAnalyze` and `commitOffset`
touch the bus only; `claimWon` is the lock acquisition (the status advance is
a separate `setStatus` as in the source); `setFailed` writes `status` and
`error_message` in one commit; `setCompleted` writes `status = completed` and
`completed_at` in one commit. -/
def applyEvent (db : Db) : WEvent → Db
  | .claimWon | .claimLost | .publishAnalyze _ _ | .commitOffset => db
  | .setStatus s =>
    { db with request := db.request.map fun r => { r with status := s } }
  | .setFailed msg =>
    { db with request := db.request.map fun r =>
        { r with status := .failed, error_message := some msg } }
  | .insertSearchResults rows =>
    { db with search_results := db.search_results ++ rows }
  | .insertAnalysisResult s ms =>
    { db with analysis_results := db.analysis_results ++ [(s, ms)] }
  | .setCompleted =>
    { db with request := db.request.map fun r =>
        { r with status := .completed, completedSet := true } }

/-- Folding a trace of actions over the Ledger. -/
def runEvents (db : Db) (es : List WEvent) : Db := es.foldl applyEvent db

def requestStatus (db : Db) : Option Status := db.request.map fun r => r.status

def requestError (db : Db) : Option String := db.request.bind fun r => r.error_message

/-- Post-processing of `search_and_crawl` (`search-worker/main.py` lines
72-76): keep the results with non-empty content; if none qualify, fall back to
the first three raw results. -/
def searchAndCrawlFilter (results : List SearchResultRow) : List SearchResultRow :=
  if (results.filter fun r => r.content ≠ "").isEmpty then results.take 3
  else results.filter fun r => r.content ≠ ""

/-- The per-message body of `process_search` (lines 87-183).  `searchOutcome`
is the result of `search_and_crawl` or the exception it (or any later
statement before the insert) raises.  The branches, in source order:

* row absent, or `status != 'searching'` (claim lost): log, commit offset,
  continue (lines 110-123);
* claim won: `status = 'processing_search'` committed (lines 125-128);
* exception: the `except` block sets `failed` with the message and commits
  the database — but performs no offset commit (lines 173-181);
* empty result list: `failed` with `"No search results found"`, offset
  committed (lines 134-141);
* success: insert rows, `status = "analyzing"`, publish the analyze task,
  commit the offset (lines 143-171). -/
def processSearchMsg (db : Db) (requestId topic : String)
    (searchOutcome : Except String (List SearchResultRow)) : List WEvent :=
  match db.request with
  | none => [.claimLost, .commitOffset]
  | some r =>
    if r.status = .searching then
      match searchOutcome with
      | .error e => [.claimWon, .setStatus .processing_search, .setFailed e]
      | .ok rows =>
        if rows.isEmpty then
          [.claimWon, .setStatus .processing_search,
            .setFailed "No search results found", .commitOffset]
        else
          [.claimWon, .setStatus .processing_search, .insertSearchResults rows,
            .setStatus .analyzing, .publishAnalyze requestId topic, .commitOffset]
    else [.claimLost, .commitOffset]

/-- Phase resolution of `process_ai` (lines 328-339): an absent `phase`
defaults to `"analyze"`; `"generate_queries"` falls back to `"analyze"`. -/
def resolvePhase (phase : Option String) : String :=
  if phase.getD "analyze" = "generate_queries" then "analyze" else phase.getD "analyze"

/-- The per-message body of `process_ai` (lines 322-412).  The analysis stage
is the real `analyze_search_results` composition; `elapsedMs` is the measured
wall-clock inference time.  A message whose resolved phase is not `"analyze"`
falls through the `if` chain: no claim, no Ledger write, and no offset
commit. -/
def processAiMsg (maxModelLen : Nat) (tk : String → Nat)
    (gen : String → Except String String) (elapsedMs : Nat) (db : Db)
    (requestId topic : String) (phase : Option String) : List WEvent :=
  if resolvePhase phase = "analyze" then
    match db.request with
    | none => [.claimLost, .commitOffset]
    | some r =>
      if r.status = .analyzing then
        match analyzeSearchResults maxModelLen tk gen requestId topic db.search_results with
        | .error e => [.claimWon, .setStatus .processing_analysis, .setFailed e]
        | .ok out =>
          [.claimWon, .setStatus .processing_analysis,
            .insertAnalysisResult out.summary elapsedMs, .setCompleted, .commitOffset]
      else [.claimLost, .commitOffset]
  else []

/-- Ledger-first disjunction of the specification: the request status is one
of `analyzing`, `processing_analysis`, `completed`, `failed`, or the request
has no SearchResults. -/
def ledgerFirstOk (db : Db) : Prop :=
  (requestStatus db = some .analyzing ∨ requestStatus db = some .processing_analysis ∨
    requestStatus db = some .completed ∨ requestStatus db = some .failed) ∨
  db.search_results = []

/-- C5 (amended): in the success path of the search worker, the bus offset
commit is ordered strictly after both the Ledger transition to `analyzing`
and the publish of the analyze task; and the Ledger-first consequence holds
in restricted form — on every path of the per-message body entered with no
pre-existing SearchResults for the request, at every point where the offset
has just been committed, the request status is in
`{analyzing, processing_analysis, completed, failed}` or the request has no
SearchResults.  The restriction is necessary: as
`ledger_first_violated_on_redelivery` shows, a redelivered message whose
request is already in `processing_search` with SearchResults inserted is
dropped via the lost path, which commits the offset while the unrestricted
disjunction is false. -/
theorem offset_commit_after_ledger (db : Db) (requestId topic : String)
    (rows : List SearchResultRow) (r : RequestRow)
    (hreq : db.request = some r) (hstat : r.status = .searching)
    (hrows : rows.isEmpty = false) :
    (∀ i : Nat,
      (processSearchMsg db requestId topic (.ok rows))[i]? = some .commitOffset →
      (∃ j, j < i ∧ (processSearchMsg db requestId topic (.ok rows))[j]? =
        some (.setStatus .analyzing)) ∧
      (∃ j, j < i ∧ (processSearchMsg db requestId topic (.ok rows))[j]? =
        some (.publishAnalyze requestId topic))) ∧
    (∀ (outc : Except String (List SearchResultRow)) (db' : Db),
      db'.search_results = [] →
      ∀ i : Nat, (processSearchMsg db' requestId topic outc)[i]? = some .commitOffset →
        ledgerFirstOk (runEvents db' ((processSearchMsg db' requestId topic outc).take i))) := by
  constructor
  · have htr : processSearchMsg db requestId topic (.ok rows) =
        [.claimWon, .setStatus .processing_search, .insertSearchResults rows,
          .setStatus .analyzing, .publishAnalyze requestId topic, .commitOffset] := by
      simp [processSearchMsg, hreq, hstat, hrows]
    intro i hi
    rw [htr] at hi ⊢
    by_cases hlt : i < 6
    · interval_cases i
      · exact (nomatch hi)
      · exact (nomatch hi)
      · exact (nomatch hi)
      · exact (nomatch hi)
      · exact (nomatch hi)
      · exact ⟨⟨3, by omega, rfl⟩, ⟨4, by omega, rfl⟩⟩
    · rw [List.getElem?_eq_none (by simpa using by omega)] at hi
      exact (nomatch hi)
  · intro outc db' hclean i hi
    cases hr : db'.request with
    | none =>
      have htr : processSearchMsg db' requestId topic outc = [.claimLost, .commitOffset] := by
        simp [processSearchMsg, hr]
      rw [htr] at hi
      by_cases hlt : i < 2
      · interval_cases i
        · exact (nomatch hi)
        · right
          simp [htr, runEvents, applyEvent, hclean]
      · rw [List.getElem?_eq_none (by simpa using by omega)] at hi
        exact (nomatch hi)
    | some row =>
      by_cases hs : row.status = .searching
      · cases outc with
        | error e =>
          have htr : processSearchMsg db' requestId topic (.error e) =
              [.claimWon, .setStatus .processing_search, .setFailed e] := by
            simp [processSearchMsg, hr, hs]
          rw [htr] at hi
          by_cases hlt : i < 3
          · interval_cases i
            · exact (nomatch hi)
            · exact (nomatch hi)
            · exact (nomatch hi)
          · rw [List.getElem?_eq_none (by simpa using by omega)] at hi
            exact (nomatch hi)
        | ok rws =>
          by_cases hrw : rws.isEmpty
          · have htr : processSearchMsg db' requestId topic (.ok rws) =
                [.claimWon, .setStatus .processing_search,
                  .setFailed "No search results found", .commitOffset] := by
              simp [processSearchMsg, hr, hs, hrw]
            rw [htr] at hi
            by_cases hlt : i < 4
            · interval_cases i
              · exact (nomatch hi)
              · exact (nomatch hi)
              · exact (nomatch hi)
              · left
                right; right; right
                simp [htr, runEvents, applyEvent, requestStatus, hr]
            · rw [List.getElem?_eq_none (by simpa using by omega)] at hi
              exact (nomatch hi)
          · have htr : processSearchMsg db' requestId topic (.ok rws) =
                [.claimWon, .setStatus .processing_search, .insertSearchResults rws,
                  .setStatus .analyzing, .publishAnalyze requestId topic,
                  .commitOffset] := by
              simp [processSearchMsg, hr, hs, hrw]
            rw [htr] at hi
            by_cases hlt : i < 6
            · interval_cases i
              · exact (nomatch hi)
              · exact (nomatch hi)
              · exact (nomatch hi)
              · exact (nomatch hi)
              · exact (nomatch hi)
              · left
                left
                simp [htr, runEvents, applyEvent, requestStatus, hr]
            · rw [List.getElem?_eq_none (by simpa using by omega)] at hi
              exact (nomatch hi)
      · have htr : processSearchMsg db' requestId topic outc = [.claimLost, .commitOffset] := by
          simp [processSearchMsg, hr, hs]
        rw [htr] at hi
        by_cases hlt : i < 2
        · interval_cases i
          · exact (nomatch hi)
          · right
            simp [htr, runEvents, applyEvent, hclean]
        · rw [List.getElem?_eq_none (by simpa using by omega)] at hi
          exact (nomatch hi)

/-- Witness for C5: a concrete claimable Ledger row and a one-row result set;
the commit is at index 5, after the `analyzing` transition (index 3) and the
publish (index 4), and the Ledger-first disjunction holds at the commit on the
lost path of an unrelated Ledger state. -/
theorem offset_commit_after_ledger_witness :
    ((∃ j, j < 5 ∧ (processSearchMsg ⟨some ⟨"t", .searching, none, false⟩, [], []⟩ "r1" "t"
        (.ok [⟨"u", "ti", "c"⟩]))[j]? = some (.setStatus .analyzing)) ∧
      (∃ j, j < 5 ∧ (processSearchMsg ⟨some ⟨"t", .searching, none, false⟩, [], []⟩ "r1" "t"
        (.ok [⟨"u", "ti", "c"⟩]))[j]? = some (.publishAnalyze "r1" "t"))) ∧
    ledgerFirstOk (runEvents ⟨some ⟨"t", .completed, none, true⟩, [], []⟩
      ((processSearchMsg ⟨some ⟨"t", .completed, none, true⟩, [], []⟩ "r1" "t"
        (.ok [⟨"u", "ti", "c"⟩])).take 1)) := by
  have h := offset_commit_after_ledger ⟨some ⟨"t", .searching, none, false⟩, [], []⟩
    "r1" "t" [⟨"u", "ti", "c"⟩] ⟨"t", .searching, none, false⟩ rfl rfl (by decide)
  exact ⟨h.1 5 (by decide), h.2 (.ok [⟨"u", "ti", "c"⟩])
    ⟨some ⟨"t", .completed, none, true⟩, [], []⟩ rfl 1 (by decide)⟩

/-- C5 counterexample: the unrestricted Ledger-first invariant of the claim is
false on a reachable state.  After a duplicate delivery, a first worker has
won the claim, committed `status = 'processing_search'` and committed the
SearchResults insert (lines 125-153); the second delivery then takes the lost
path (lines 110-123), which commits the search-queue offset while the status
is `processing_search` — not in
`{analyzing, processing_analysis, completed, failed}` — and the request does
have SearchResults. -/
theorem ledger_first_violated_on_redelivery :
    processSearchMsg ⟨some ⟨"t", .processing_search, none, false⟩, [⟨"u", "ti", "c"⟩], []⟩
        "r1" "t" (.ok [⟨"u", "ti", "c"⟩]) = [.claimLost, .commitOffset] ∧
    (processSearchMsg ⟨some ⟨"t", .processing_search, none, false⟩, [⟨"u", "ti", "c"⟩], []⟩
        "r1" "t" (.ok [⟨"u", "ti", "c"⟩]))[1]? = some .commitOffset ∧
    ¬ ledgerFirstOk (runEvents
        ⟨some ⟨"t", .processing_search, none, false⟩, [⟨"u", "ti", "c"⟩], []⟩
        ((processSearchMsg
          ⟨some ⟨"t", .processing_search, none, false⟩, [⟨"u", "ti", "c"⟩], []⟩
          "r1" "t" (.ok [⟨"u", "ti", "c"⟩])).take 1)) := by
  refine ⟨rfl, rfl, ?_⟩
  intro h
  rcases h with h | h
  · rcases h with h | h | h | h <;> exact (nomatch h)
  · exact (nomatch h)

/-! ### Exception handling after a won claim (C6) -/

/-- A claimable Ledger state for the C6 counterexample. -/
def c6Db : Db := ⟨some ⟨"t", .searching, none, false⟩, [], []⟩

/-- C6 counterexample: when the search stage raises `"boom"` after the claim
is won, the `except` block of `process_search` (lines 173-181) sets the
request to `failed` with the message — but the trace contains no offset
commit, refuting the part of the claim that says the worker "then commits the
bus offset for that message". -/
theorem exception_no_offset_commit_counterexample :
    processSearchMsg c6Db "r1" "t" (.error "boom") =
      [.claimWon, .setStatus .processing_search, .setFailed "boom"] ∧
    requestStatus (runEvents c6Db (processSearchMsg c6Db "r1" "t" (.error "boom"))) =
      some .failed ∧
    requestError (runEvents c6Db (processSearchMsg c6Db "r1" "t" (.error "boom"))) =
      some "boom" ∧
    (processSearchMsg c6Db "r1" "t" (.error "boom")).count .commitOffset = 0 := by
  decide

/-- C6 amended: for every exception raised during message processing after
the claim is won, the worker sets the request status to `failed` and records
the exception message in `error_message`, but it does not commit the bus
offset in the exception handler — the trace contains no `commitOffset`.  This
holds for the search worker (any exception before the insert, modelled as a
failing search stage) and for the analysis worker (any exception from
`analyze_search_results`, including summarizer errors). -/
theorem exception_marks_failed_without_commit (db : Db) (requestId topic e : String)
    (r : RequestRow) (maxModelLen : Nat) (tk : String → Nat)
    (gen : String → Except String String) (elapsedMs : Nat) (phase : Option String) :
    (db.request = some r → r.status = .searching →
      processSearchMsg db requestId topic (.error e) =
        [.claimWon, .setStatus .processing_search, .setFailed e] ∧
      requestStatus (runEvents db (processSearchMsg db requestId topic (.error e))) =
        some .failed ∧
      requestError (runEvents db (processSearchMsg db requestId topic (.error e))) =
        some e ∧
      (processSearchMsg db requestId topic (.error e)).count .commitOffset = 0) ∧
    (db.request = some r → r.status = .analyzing → resolvePhase phase = "analyze" →
      analyzeSearchResults maxModelLen tk gen requestId topic db.search_results =
        .error e →
      processAiMsg maxModelLen tk gen elapsedMs db requestId topic phase =
        [.claimWon, .setStatus .processing_analysis, .setFailed e] ∧
      requestStatus (runEvents db
        (processAiMsg maxModelLen tk gen elapsedMs db requestId topic phase)) =
        some .failed ∧
      requestError (runEvents db
        (processAiMsg maxModelLen tk gen elapsedMs db requestId topic phase)) =
        some e ∧
      (processAiMsg maxModelLen tk gen elapsedMs db requestId topic phase).count
        .commitOffset = 0) := by
  constructor
  · intro hreq hstat
    have htr : processSearchMsg db requestId topic (.error e) =
        [.claimWon, .setStatus .processing_search, .setFailed e] := by
      simp [processSearchMsg, hreq, hstat]
    refine ⟨htr, ?_, ?_, ?_⟩ <;>
      simp [htr, runEvents, applyEvent, requestStatus, requestError, hreq, List.count]
  · intro hreq hstat hphase hana
    have htr : processAiMsg maxModelLen tk gen elapsedMs db requestId topic phase =
        [.claimWon, .setStatus .processing_analysis, .setFailed e] := by
      simp [processAiMsg, hphase, hreq, hstat, hana]
    refine ⟨htr, ?_, ?_, ?_⟩ <;>
      simp [htr, runEvents, applyEvent, requestStatus, requestError, hreq, List.count]

/-- An engine that always raises, standing for a summarizer error. -/
def c6Gen : String → Except String String := fun _ => .error "GPU failure"

/-- Witness for the amended C6 on both workers at concrete inputs. -/
theorem exception_marks_failed_without_commit_witness :
    (processSearchMsg c6Db "r1" "t" (.error "boom") =
        [.claimWon, .setStatus .processing_search, .setFailed "boom"] ∧
      requestStatus (runEvents c6Db (processSearchMsg c6Db "r1" "t" (.error "boom"))) =
        some .failed ∧
      requestError (runEvents c6Db (processSearchMsg c6Db "r1" "t" (.error "boom"))) =
        some "boom" ∧
      (processSearchMsg c6Db "r1" "t" (.error "boom")).count .commitOffset = 0) ∧
    (processAiMsg 4096 String.length c6Gen 5
        ⟨some ⟨"t", .analyzing, none, false⟩, [⟨"u", "ti", "c"⟩], []⟩ "r1" "t" none =
        [.claimWon, .setStatus .processing_analysis, .setFailed "GPU failure"] ∧
      requestStatus (runEvents ⟨some ⟨"t", .analyzing, none, false⟩, [⟨"u", "ti", "c"⟩], []⟩
        (processAiMsg 4096 String.length c6Gen 5
          ⟨some ⟨"t", .analyzing, none, false⟩, [⟨"u", "ti", "c"⟩], []⟩ "r1" "t" none)) =
        some .failed ∧
      requestError (runEvents ⟨some ⟨"t", .analyzing, none, false⟩, [⟨"u", "ti", "c"⟩], []⟩
        (processAiMsg 4096 String.length c6Gen 5
          ⟨some ⟨"t", .analyzing, none, false⟩, [⟨"u", "ti", "c"⟩], []⟩ "r1" "t" none)) =
        some "GPU failure" ∧
      (processAiMsg 4096 String.length c6Gen 5
        ⟨some ⟨"t", .analyzing, none, false⟩, [⟨"u", "ti", "c"⟩], []⟩ "r1" "t" none).count
        .commitOffset = 0) := by
  have hs := exception_marks_failed_without_commit c6Db "r1" "t" "boom"
    ⟨"t", .searching, none, false⟩ 4096 String.length c6Gen 5 none
  have ha := exception_marks_failed_without_commit
    ⟨some ⟨"t", .analyzing, none, false⟩, [⟨"u", "ti", "c"⟩], []⟩ "r1" "t" "GPU failure"
    ⟨"t", .analyzing, none, false⟩ 4096 String.length c6Gen 5 none
  exact ⟨hs.1 rfl rfl, ha.2 rfl rfl (by decide) (by rfl)⟩

/-! ### Empty search result set (C7) -/

/-- C7: when the search stage yields an empty result set (`search_and_crawl`
returns the empty list exactly when its raw result list is empty), the search
worker transitions the request to `failed` with `error_message` exactly
`"No search results found"`, commits the bus offset exactly once, and writes
no SearchResult rows and no AnalysisResult. -/
theorem empty_search_marks_failed (db : Db) (requestId topic : String)
    (r : RequestRow) (raw : List SearchResultRow)
    (hreq : db.request = some r) (hstat : r.status = .searching) (hraw : raw = [])
    (hcleanS : db.search_results = []) (hcleanA : db.analysis_results = []) :
    searchAndCrawlFilter raw = [] ∧
    processSearchMsg db requestId topic (.ok (searchAndCrawlFilter raw)) =
      [.claimWon, .setStatus .processing_search,
        .setFailed "No search results found", .commitOffset] ∧
    requestStatus (runEvents db
      (processSearchMsg db requestId topic (.ok (searchAndCrawlFilter raw)))) =
      some .failed ∧
    requestError (runEvents db
      (processSearchMsg db requestId topic (.ok (searchAndCrawlFilter raw)))) =
      some "No search results found" ∧
    (runEvents db
      (processSearchMsg db requestId topic (.ok (searchAndCrawlFilter raw)))).search_results
      = [] ∧
    (runEvents db
      (processSearchMsg db requestId topic
        (.ok (searchAndCrawlFilter raw)))).analysis_results = [] ∧
    (processSearchMsg db requestId topic
      (.ok (searchAndCrawlFilter raw))).count .commitOffset = 1 := by
  subst hraw
  have hfil : searchAndCrawlFilter [] = [] := by decide
  have htr : processSearchMsg db requestId topic (.ok (searchAndCrawlFilter [])) =
      [.claimWon, .setStatus .processing_search,
        .setFailed "No search results found", .commitOffset] := by
    simp [processSearchMsg, hreq, hstat, hfil]
  refine ⟨hfil, htr, ?_, ?_, ?_, ?_, ?_⟩ <;>
    simp [htr, runEvents, applyEvent, requestStatus, requestError, hreq, hcleanS,
      hcleanA, List.count]

/-- Witness for C7 at a concrete claimable Ledger state. -/
theorem empty_search_marks_failed_witness :
    searchAndCrawlFilter [] = [] ∧
    processSearchMsg c6Db "r1" "t" (.ok (searchAndCrawlFilter [])) =
      [.claimWon, .setStatus .processing_search,
        .setFailed "No search results found", .commitOffset] ∧
    requestStatus (runEvents c6Db
      (processSearchMsg c6Db "r1" "t" (.ok (searchAndCrawlFilter [])))) = some .failed ∧
    requestError (runEvents c6Db
      (processSearchMsg c6Db "r1" "t" (.ok (searchAndCrawlFilter [])))) =
      some "No search results found" ∧
    (runEvents c6Db
      (processSearchMsg c6Db "r1" "t" (.ok (searchAndCrawlFilter [])))).search_results
      = [] ∧
    (runEvents c6Db
      (processSearchMsg c6Db "r1" "t" (.ok (searchAndCrawlFilter [])))).analysis_results
      = [] ∧
    (processSearchMsg c6Db "r1" "t"
      (.ok (searchAndCrawlFilter []))).count .commitOffset = 1 :=
  empty_search_marks_failed c6Db "r1" "t" ⟨"t", .searching, none, false⟩ [] rfl rfl rfl
    rfl rfl

/-! ### Lost claims and stale messages (C8) -/

/-- C8: for every delivered message whose request row is absent or whose
request is in a non-matching (possibly terminal) status, the worker (search or
analysis) emits exactly a lost-claim log followed by an offset commit: it
drops the message without mutating the Ledger, without raising (the handlers
are total), and without writing any SearchResult or AnalysisResult. -/
theorem lost_claim_commits_and_drops (db : Db) (requestId topic : String)
    (outc : Except String (List SearchResultRow)) (maxModelLen : Nat)
    (tk : String → Nat) (gen : String → Except String String) (elapsedMs : Nat)
    (phase : Option String) :
    ((db.request = none ∨ ∃ r, db.request = some r ∧ r.status ≠ .searching) →
      processSearchMsg db requestId topic outc = [.claimLost, .commitOffset] ∧
      runEvents db (processSearchMsg db requestId topic outc) = db) ∧
    ((db.request = none ∨ ∃ r, db.request = some r ∧ r.status ≠ .analyzing) →
      resolvePhase phase = "analyze" →
      processAiMsg maxModelLen tk gen elapsedMs db requestId topic phase =
        [.claimLost, .commitOffset] ∧
      runEvents db (processAiMsg maxModelLen tk gen elapsedMs db requestId topic phase) =
        db) := by
  constructor
  · intro h
    have htr : processSearchMsg db requestId topic outc = [.claimLost, .commitOffset] := by
      rcases h with h | ⟨r, hr, hs⟩
      · simp [processSearchMsg, h]
      · simp [processSearchMsg, hr, hs]
    exact ⟨htr, by simp [htr, runEvents, applyEvent]⟩
  · intro h hphase
    have htr : processAiMsg maxModelLen tk gen elapsedMs db requestId topic phase =
        [.claimLost, .commitOffset] := by
      rcases h with h | ⟨r, hr, hs⟩
      · simp [processAiMsg, hphase, h]
      · simp [processAiMsg, hphase, hr, hs]
    exact ⟨htr, by simp [htr, runEvents, applyEvent]⟩

/-- Witness for C8: a request already `completed` is dropped with an offset
commit by both workers, leaving the Ledger unchanged. -/
theorem lost_claim_commits_and_drops_witness :
    (processSearchMsg ⟨some ⟨"t", .completed, none, true⟩, [], []⟩ "r1" "t"
        (.ok [⟨"u", "ti", "c"⟩]) = [.claimLost, .commitOffset] ∧
      runEvents ⟨some ⟨"t", .completed, none, true⟩, [], []⟩
        (processSearchMsg ⟨some ⟨"t", .completed, none, true⟩, [], []⟩ "r1" "t"
          (.ok [⟨"u", "ti", "c"⟩])) = ⟨some ⟨"t", .completed, none, true⟩, [], []⟩) ∧
    (processAiMsg 4096 String.length c6Gen 5
        ⟨some ⟨"t", .completed, none, true⟩, [], []⟩ "r1" "t" none =
        [.claimLost, .commitOffset] ∧
      runEvents ⟨some ⟨"t", .completed, none, true⟩, [], []⟩
        (processAiMsg 4096 String.length c6Gen 5
          ⟨some ⟨"t", .completed, none, true⟩, [], []⟩ "r1" "t" none) =
        ⟨some ⟨"t", .completed, none, true⟩, [], []⟩) := by
  have h := lost_claim_commits_and_drops ⟨some ⟨"t", .completed, none, true⟩, [], []⟩
    "r1" "t" (.ok [⟨"u", "ti", "c"⟩]) 4096 String.length c6Gen 5 none
  exact ⟨h.1 (Or.inr ⟨_, rfl, by decide⟩), h.2 (Or.inr ⟨_, rfl, by decide⟩) (by decide)⟩

/-! ### Unknown phase values (C10) -/

/-- C10: an analyze-queue message whose `phase` is neither `"analyze"` nor
`"generate_queries"` falls through the phase dispatch of `process_ai`: the
worker performs no claim attempt, leaves the Ledger unchanged, and does not
commit the bus offset, so the message stays unacknowledged instead of being
dropped.  An absent `phase` resolves to `"analyze"`. -/
theorem unknown_phase_unacknowledged (maxModelLen : Nat) (tk : String → Nat)
    (gen : String → Except String String) (elapsedMs : Nat) (db : Db)
    (requestId topic : String) (p : String)
    (h1 : p ≠ "analyze") (h2 : p ≠ "generate_queries") :
    processAiMsg maxModelLen tk gen elapsedMs db requestId topic (some p) = [] ∧
    runEvents db (processAiMsg maxModelLen tk gen elapsedMs db requestId topic (some p)) =
      db ∧
    (processAiMsg maxModelLen tk gen elapsedMs db requestId topic (some p)).count
      .commitOffset = 0 ∧
    resolvePhase none = "analyze" := by
  have htr : processAiMsg maxModelLen tk gen elapsedMs db requestId topic (some p) = [] := by
    simp [processAiMsg, resolvePhase, h1, h2]
  exact ⟨htr, by simp [htr, runEvents], by simp [htr, List.count], rfl⟩

/-- Witness for C10 with the unknown phase `"foo"`. -/
theorem unknown_phase_unacknowledged_witness :
    processAiMsg 4096 String.length c6Gen 5 c6Db "r1" "t" (some "foo") = [] ∧
    runEvents c6Db (processAiMsg 4096 String.length c6Gen 5 c6Db "r1" "t" (some "foo")) =
      c6Db ∧
    (processAiMsg 4096 String.length c6Gen 5 c6Db "r1" "t" (some "foo")).count
      .commitOffset = 0 ∧
    resolvePhase none = "analyze" :=
  unknown_phase_unacknowledged 4096 String.length c6Gen 5 c6Db "r1" "t" "foo"
    (by decide) (by decide)

/-!
## The listing endpoint (C9)

`GET /api/requests` (`api_server/main.py` lines 108-142).  The `limit` query
parameter is declared `limit: int = Query(20, le=100)`: FastAPI applies the
`le=100` constraint as request validation, so a request with `limit > 100` is
rejected with a 422 validation error — the value is not clamped.
-/

/-- The string stored in the `status` column for each lifecycle state. -/
def statusStr : Status → String
  | .pending => "pending"
  | .searching => "searching"
  | .processing_search => "processing_search"
  | .analyzing => "analyzing"
  | .processing_analysis => "processing_analysis"
  | .completed => "completed"
  | .failed => "failed"

/-- A `requests` row as the listing endpoint reads it. -/
structure ApiRequestRow where
  topic : String
  status : Status
  created_at : Nat
deriving DecidableEq, Repr

def insertDesc (r : ApiRequestRow) : List ApiRequestRow → List ApiRequestRow
  | [] => [r]
  | x :: xs => if x.created_at ≤ r.created_at then r :: x :: xs else x :: insertDesc r xs

/-- `ORDER BY created_at DESC` (line 123). -/
def orderByCreatedDesc : List ApiRequestRow → List ApiRequestRow
  | [] => []
  | x :: xs => insertDesc x (orderByCreatedDesc xs)

/-- FastAPI validation of `limit: int = Query(20, le=100)` (line 111):
a missing parameter defaults to 20; a provided value above 100 fails the
`le=100` constraint and the request is rejected with a 422 response. -/
def validateLimit (raw : Option Int) : Except String Int :=
  match raw with
  | none => .ok 20
  | some v =>
    if v ≤ 100 then .ok v
    else .error "422 Unprocessable Entity: limit must be less than or equal to 100"

/-- The query of `list_requests` (lines 116-127): optional status filter
(disabled for an absent, empty or `"all"` status), total count, then
`ORDER BY created_at DESC LIMIT limit OFFSET offset`. -/
def listRequests (reqs : List ApiRequestRow) (status : Option String)
    (limit offset : Int) : Nat × List ApiRequestRow :=
  match status with
  | some s =>
    if s ≠ "" ∧ s ≠ "all" then
      ((reqs.filter fun r => statusStr r.status = s).length,
        (((orderByCreatedDesc (reqs.filter fun r => statusStr r.status = s)).drop
          offset.toNat).take limit.toNat))
    else (reqs.length, ((orderByCreatedDesc reqs).drop offset.toNat).take limit.toNat)
  | none => (reqs.length, ((orderByCreatedDesc reqs).drop offset.toNat).take limit.toNat)

/-- `GET /api/requests` end to end: parameter validation, then the query. -/
def listRequestsEndpoint (reqs : List ApiRequestRow) (status : Option String)
    (rawLimit : Option Int) (offset : Int) : Except String (Nat × List ApiRequestRow) :=
  (validateLimit rawLimit).map fun lim => listRequests reqs status lim offset

/-- C9 counterexample: a request with `limit = 101` is rejected with a 422
validation error; in particular the call is not answered with a page clamped
to the cap of 100, refuting the claim that over-cap limits are clamped rather
than rejected. -/
theorem limit_above_cap_rejected :
    listRequestsEndpoint [] none (some 101) 0 =
      .error "422 Unprocessable Entity: limit must be less than or equal to 100" ∧
    validateLimit (some 101) ≠ .ok 100 ∧
    ∀ page, listRequestsEndpoint [] none (some 101) 0 ≠ .ok page := by
  refine ⟨rfl, fun h => (nomatch h), ?_⟩
  intro page h
  exact (nomatch h)

/-- C9 amended: a `limit` above the cap of 100 is rejected by the `le=100`
validation with a 422 error (it is not clamped); every request that passes
validation has `limit ≤ 100` and its listing page holds at most 100 items. -/
theorem limit_validated_at_most_100 (reqs : List ApiRequestRow)
    (status : Option String) (rawLimit : Option Int) (offset : Int) (lim : Int)
    (hok : validateLimit rawLimit = .ok lim) :
    lim ≤ 100 ∧ (listRequests reqs status lim offset).2.length ≤ 100 ∧
    (∀ v : Int, 100 < v → validateLimit (some v) =
      .error "422 Unprocessable Entity: limit must be less than or equal to 100") := by
  have hlim : lim ≤ 100 := by
    cases rawLimit with
    | none =>
      simp only [validateLimit, Except.ok.injEq] at hok
      omega
    | some v =>
      rw [validateLimit] at hok
      split at hok
      · rename_i hv
        simp only [Except.ok.injEq] at hok
        omega
      · exact (nomatch hok)
  refine ⟨hlim, ?_, ?_⟩
  · have htake : ∀ l : List ApiRequestRow, (l.take lim.toNat).length ≤ lim.toNat :=
      fun l => List.length_take_le _ _
    have h100 : lim.toNat ≤ 100 := by omega
    cases status with
    | none =>
      simp only [listRequests]
      exact le_trans (htake _) h100
    | some s =>
      simp only [listRequests]
      split
      · exact le_trans (htake _) h100
      · exact le_trans (htake _) h100
  · intro v hv
    rw [validateLimit, if_neg (by omega)]

def c9Rows : List ApiRequestRow :=
  [⟨"a", .completed, 3⟩, ⟨"b", .failed, 1⟩, ⟨"c", .searching, 2⟩]

/-- Witness for the amended C9: the default limit 20 passes validation and the
page holds at most 100 items; `limit = 150` is rejected. -/
theorem limit_validated_at_most_100_witness :
    (20 : Int) ≤ 100 ∧ (listRequests c9Rows none 20 0).2.length ≤ 100 ∧
    validateLimit (some 150) =
      .error "422 Unprocessable Entity: limit must be less than or equal to 100" := by
  have h := limit_validated_at_most_100 c9Rows none none 0 20 rfl
  exact ⟨h.1, h.2.1, h.2.2 150 (by decide)⟩

end AiAgent
